import Mathlib

/-!
Shallow embedding of the GDP snapshot ETL pipeline
(`missions/W1/M3/etl_project_gdp.py`, document/JSON backend, and
`missions/W1/M3/etl_project_gdp_with_sql.py`, relational/SQLite backend).

Modelling conventions:
* Numeric magnitudes are rationals (`ℚ`); pandas/SQLite float arithmetic is
  modelled exactly, and `round(x, 2)` / `ROUND(x, 2)` is modelled as
  round-half-up on rationals (`round2`).  Timestamps are naturals.
* `pd.to_numeric(..., errors='coerce')` on a cleaned string is modelled by
  `toNumeric : List Char → Option ℚ`, accepting an optional sign and a
  decimal literal (exponent forms never occur in this data).
* The regex `[\(\[].*?[\)\]]` used with pandas `str.replace` removes, left to
  right, every non-greedy match from an opening `(`/`[` through the first
  following `)`/`]`; an opener with no closer anywhere after it matches
  nothing.  `stripLoop` is a fuelled (hence executable) implementation of
  exactly that scan.
* File-system and database effects are explicit state passing: the JSON
  history file is a `DocFile` (absent / unparseable / parsed rows) and the
  SQLite table is an `Option (List Row)` (`none` = table never created).
  Raised Python exceptions become `Except` errors; log lines become lists of
  strings (timestamps omitted).
-/

namespace GdpEtl

/-! ### Value cleaning (transform step 2 of both backends) -/

/-- Characters opening a bracketed aside in the cleaning regex. -/
def isOpenBracket (c : Char) : Bool := c == '(' || c == '['

/-- Characters closing a bracketed aside in the cleaning regex. -/
def isCloseBracket (c : Char) : Bool := c == ')' || c == ']'

/-- Scan for the first closing bracket; return the suffix after it, if any.
This is the extent of one non-greedy `.*?[\)\]]` match. -/
def dropUntilClose : List Char → Option (List Char)
  | [] => none
  | c :: cs => if isCloseBracket c then some cs else dropUntilClose cs

/-- One left-to-right pass of `str.replace(r'[\(\[].*?[\)\]]', '', regex=True)`.
The fuel argument only ensures structural recursion; `l.length` fuel is
always enough because every step consumes at least one character. -/
def stripLoop : ℕ → List Char → List Char
  | 0, l => l
  | _ + 1, [] => []
  | fuel + 1, c :: cs =>
    if isOpenBracket c then
      match dropUntilClose cs with
      | some rest => stripLoop fuel rest
      | none => c :: cs
    else
      c :: stripLoop fuel cs

/-- Remove every bracketed aside, as the pandas regex replace does. -/
def stripBrackets (l : List Char) : List Char := stripLoop l.length l

/-- Python `str.strip()`: drop whitespace from both ends. -/
def trimEdges (l : List Char) : List Char :=
  ((l.dropWhile Char.isWhitespace).reverse.dropWhile Char.isWhitespace).reverse

/-- `str.replace(',', '')`: remove the thousands separators. -/
def removeCommas (l : List Char) : List Char := l.filter (fun c => c != ',')

/-- Value of a digit string read in base 10. -/
def digitsToNat (l : List Char) : ℕ := l.foldl (fun a c => 10 * a + (c.toNat - 48)) 0

/-- Parse an unsigned decimal literal (`123`, `123.45`, `123.`, `.45`);
anything else is rejected, as `pd.to_numeric(..., errors='coerce')` is. -/
def parseUnsigned (l : List Char) : Option ℚ :=
  let ip := l.takeWhile Char.isDigit
  match l.dropWhile Char.isDigit with
  | [] => if ip.isEmpty then none else some (digitsToNat ip)
  | '.' :: fp =>
    if fp.all Char.isDigit && !(ip.isEmpty && fp.isEmpty) then
      some ((digitsToNat ip : ℚ) + (digitsToNat fp : ℚ) / (10 : ℚ) ^ fp.length)
    else none
  | _ => none

/-- Numeric coercion of a cleaned value text: optional sign, decimal literal. -/
def toNumeric : List Char → Option ℚ
  | '-' :: rest => (parseUnsigned rest).map (fun q => -q)
  | '+' :: rest => parseUnsigned rest
  | l => parseUnsigned l

/-- The full cleaning chain applied to one raw value cell, in source order:
strip bracketed asides, strip surrounding whitespace, drop commas. -/
def cleanChars (l : List Char) : List Char := removeCommas (trimEdges (stripBrackets l))

/-- Clean one raw value string and coerce it, `none` when coercion fails
(the row will be dropped by `dropna`). -/
def coerceValue (s : String) : Option ℚ := toNumeric (cleanChars s.data)

/-! ### Data model -/

/-- One row as extracted from the source table: entity name and the raw
GDP text of the second cell, verbatim. -/
structure RawRow where
  country : String
  gdp_raw : String
deriving DecidableEq

/-- One persisted classified row: the columns shared by the JSON history
file and the `Countries_by_GDP` table (the relational identity key is not
load-bearing for any property here).  `time` models `Processed_Time`. -/
structure Row where
  country : String
  region : String
  gdp_billion : ℚ
  time : ℕ
deriving DecidableEq

/-- Rounding to two decimals, modelling Python `round(x, 2)` / pandas
`.round(2)` / SQLite `ROUND(x, 2)` (half-up on rationals; the half-even
versus half-away tie differences of the originals are not load-bearing). -/
def round2 (q : ℚ) : ℚ := ((q * 100 + 1 / 2).floor : ℤ) / 100

/-- `df['Country'].map(region_map).fillna('Unknown')` for one country. -/
def mapRegion (lookup : List (String × String)) (c : String) : String :=
  match lookup.lookup c with
  | some g => g
  | none => "Unknown"

/-! ### Transform (both backends) -/

/-- Rows surviving `pd.to_numeric(..., errors='coerce')` followed by
`dropna`: the coercible rows, in input order, paired with their parsed
`GDP_USD_million` magnitude. -/
def validRows (rows : List RawRow) : List (String × ℚ) :=
  rows.filterMap (fun r => (coerceValue r.gdp_raw).map (fun m => (r.country, m)))

/-- `filtered_count = initial_count - len(df)` after `dropna`. -/
def droppedCount (rows : List RawRow) : ℕ := rows.length - (validRows rows).length

/-- Build one persisted row: scale `GDP_USD_million` to billions with
2-decimal rounding, resolve the region, tag the snapshot timestamp. -/
def classify (lookup : List (String × String)) (t : ℕ) (p : String × ℚ) : Row :=
  { country := p.1, region := mapRegion lookup p.1
    gdp_billion := round2 (p.2 / 1000), time := t }

/-- Descending order on persisted rows, as used by
`sort_values(by='GDP_USD_billion', ascending=False)` and `ORDER BY
GDP_USD_billion DESC`. -/
def rowGE (a b : Row) : Prop := b.gdp_billion ≤ a.gdp_billion

instance : DecidableRel rowGE := fun a b => inferInstanceAs (Decidable (b.gdp_billion ≤ a.gdp_billion))

instance : IsTotal Row rowGE := ⟨fun a b => le_total b.gdp_billion a.gdp_billion⟩

instance : IsTrans Row rowGE := ⟨fun _ _ _ h1 h2 => le_trans h2 h1⟩

/-- `transform` of the document backend (`etl_project_gdp.py`): clean,
coerce, drop invalid rows, scale, map regions, then sort the snapshot
descending by `GDP_USD_billion` before persistence. -/
def transformDoc (lookup : List (String × String)) (t : ℕ) (rows : List RawRow) : List Row :=
  List.insertionSort rowGE ((validRows rows).map (classify lookup t))

/-- `transform` of the relational backend (`etl_project_gdp_with_sql.py`):
same cleaning, coercion, scaling and region mapping, but no sort — the
extraction row order is preserved. -/
def transformSql (lookup : List (String × String)) (t : ℕ) (rows : List RawRow) : List Row :=
  (validRows rows).map (classify lookup t)

/-- Log lines emitted by the document backend's `transform` (timestamps
omitted): the dropped-row count is logged whenever it is positive. -/
def transformDocLog (rows : List RawRow) : List String :=
  ["Transform phase Started"] ++
    (if 0 < droppedCount rows then
      ["Transform: Filtered out " ++ toString (droppedCount rows) ++
        " rows with invalid GDP data"]
    else []) ++ ["Transform phase Ended"]

/-- Log lines emitted by the relational backend's `transform`: it drops
invalid rows the same way but logs nothing about them. -/
def transformSqlLog (_rows : List RawRow) : List String :=
  ["Transform phase Started", "Transform phase Ended"]

/-! ### History stores -/

/-- State of the document backend's JSON history file:
missing, present but unparseable, or parseable with the given rows. -/
inductive DocFile
  | absent
  | corrupt
  | good (rows : List Row)
deriving DecidableEq

/-- Rows readable from a document history file (a corrupt or missing file
yields none). -/
def docRows : DocFile → List Row
  | .good rows => rows
  | _ => []

/-- Warning logged by `load` when the prior history file cannot be read. -/
def loadWarnMsg : String := "Load Warning: Failed to load history, starting new file."

/-- Final log line of `load`, reporting the total stored record count. -/
def loadEndMsg (n : ℕ) : String := "Load phase Ended: Total " ++ toString n ++ " records stored"

/-- `load` of the document backend: read the prior file if it exists,
concatenate the new snapshot's rows after the existing ones, and rewrite
the file; a read failure is logged as a warning and the history restarts
from just the new snapshot.  Returns the new file state and the log. -/
def loadDoc : DocFile → List Row → DocFile × List String
  | .absent, new => (.good new, ["Load phase Started", loadEndMsg new.length])
  | .corrupt, new =>
    (.good new, ["Load phase Started", loadWarnMsg, loadEndMsg new.length])
  | .good h, new =>
    (.good (h ++ new),
      ["Load phase Started", "Load: New records appended to existing data",
        loadEndMsg (h ++ new).length])

/-- `load_to_db` of the relational backend: create the table on first use,
then insert the snapshot's rows in order (`to_sql(..., if_exists='append')`). -/
def loadSql : Option (List Row) → List Row → Option (List Row)
  | none, new => some new
  | some h, new => some (h ++ new)

/-! ### Latest-snapshot selection -/

/-- Maximum of a series of timestamps, `none` on an empty series —
`df['Processed_Time'].max()` (NaN on empty input). -/
def seriesMax : List ℕ → Option ℕ
  | [] => none
  | t :: ts =>
    match seriesMax ts with
    | none => some t
    | some m => some (max t m)

/-- Latest processed time in the document backend's full history. -/
def latestTimeDoc (rows : List Row) : Option ℕ := seriesMax (rows.map (·.time))

/-- One scan step of SQL `MAX(Processed_Time)` aggregation. -/
def sqlMaxScan (acc : Option ℕ) : List Row → Option ℕ
  | [] => acc
  | r :: rs =>
    sqlMaxScan (match acc with | none => some r.time | some m => some (max m r.time)) rs

/-- `SELECT MAX(Processed_Time) FROM t`: `NULL` on an empty table. -/
def latestTimeSql (rows : List Row) : Option ℕ := sqlMaxScan none rows

/-- Document backend: `df[df['Processed_Time'] == df['Processed_Time'].max()]`. -/
def latestRowsDoc (rows : List Row) : List Row :=
  match latestTimeDoc rows with
  | none => []
  | some t => rows.filter (fun r => r.time = t)

/-- Relational backend: `WHERE Processed_Time = ?` with the queried
maximum bound as a parameter; a `NULL` parameter matches no row. -/
def latestRowsSql (rows : List Row) : List Row :=
  rows.filter (fun r => latestTimeSql rows = some r.time)

/-! ### Analysis: threshold report and per-group top-5 average -/

/-- Document backend threshold report: a boolean-mask filter of the latest
snapshot — the persisted row order is kept as-is. -/
def thresholdDoc (rows : List Row) (thr : ℚ) : List Row :=
  (latestRowsDoc rows).filter (fun r => thr ≤ r.gdp_billion)

/-- Relational backend threshold report:
`WHERE GDP_USD_billion >= thr AND Processed_Time = ? ORDER BY GDP_USD_billion DESC`. -/
def thresholdSql (rows : List Row) (thr : ℚ) : List Row :=
  List.insertionSort rowGE ((latestRowsSql rows).filter (fun r => thr ≤ r.gdp_billion))

/-- Descending order on rationals. -/
def qGE (a b : ℚ) : Prop := b ≤ a

instance : DecidableRel qGE := fun a b => inferInstanceAs (Decidable (b ≤ a))

instance : IsTotal ℚ qGE := ⟨fun a b => le_total b a⟩

instance : IsTrans ℚ qGE := ⟨fun _ _ _ h1 h2 => le_trans h2 h1⟩

/-- Sort rationals in descending order. -/
def qSortDesc (l : List ℚ) : List ℚ := List.insertionSort qGE l

/-- The `GDP_USD_billion` values of one region's rows within a snapshot. -/
def groupVals (latest : List Row) (g : String) : List ℚ :=
  (latest.filter (fun r => r.region = g)).map (·.gdp_billion)

/-- Pandas `Series.nlargest(k)`: the `k` largest values (all of them when
fewer than `k` exist), descending. -/
def nlargest (k : ℕ) (l : List ℚ) : List ℚ := (qSortDesc l).take k

/-- Arithmetic mean (pandas `Series.mean()` / SQL `AVG`). -/
def mean (l : List ℚ) : ℚ := l.sum / l.length

/-- Document backend per-region average:
`groupby('Region')['GDP_USD_billion'].apply(lambda x: x.nlargest(5).mean())` —
note: not rounded. -/
def docGroupAvg (latest : List Row) (g : String) : ℚ := mean (nlargest 5 (groupVals latest g))

/-- The `ROW_NUMBER() OVER (PARTITION BY Region ORDER BY GDP_USD_billion
DESC) <= 5` selection of one region's values (ranks are 1-based, so rank
`<= 5` is position `< 5` in the descending order). -/
def sqlTop5 (l : List ℚ) : List ℚ :=
  (((qSortDesc l).enum).filter (fun p => p.1 < 5)).map (·.2)

/-- Relational backend per-region average: `ROUND(AVG(GDP_USD_billion), 2)`
over the rank-`<= 5` rows. -/
def sqlGroupAvg (latest : List Row) (g : String) : ℚ := round2 (mean (sqlTop5 (groupVals latest g)))

/-- Descending order on (region, average) pairs by average. -/
def pairGE (a b : String × ℚ) : Prop := b.2 ≤ a.2

instance : DecidableRel pairGE := fun a b => inferInstanceAs (Decidable (b.2 ≤ a.2))

instance : IsTotal (String × ℚ) pairGE := ⟨fun a b => le_total b.2 a.2⟩

instance : IsTrans (String × ℚ) pairGE := ⟨fun _ _ _ h1 h2 => le_trans h2 h1⟩

/-- The regions present in a snapshot (first occurrence order; the
original group orders are not load-bearing since both outputs are then
sorted by average). -/
def regionsOf (latest : List Row) : List String := (latest.map (·.region)).dedup

/-- Document backend region table: per-region top-5 averages, sorted
descending by average (`sort_values(by='Top5_Average_GDP', ascending=False)`). -/
def docRegionTable (latest : List Row) : List (String × ℚ) :=
  List.insertionSort pairGE ((regionsOf latest).map (fun g => (g, docGroupAvg latest g)))

/-- Relational backend region table: per-region rounded top-5 averages,
`GROUP BY Region ORDER BY Average_GDP DESC`. -/
def sqlRegionTable (latest : List Row) : List (String × ℚ) :=
  List.insertionSort pairGE ((regionsOf latest).map (fun g => (g, sqlGroupAvg latest g)))

/-! ### Analysis phase entry points, with their failure modes -/

/-- Failure taxonomy of the analysis/read paths (spec §7 names; in the
source these surface as raised Python exceptions). -/
inductive EtlError
  | emptyHistory
  | historyRead
deriving DecidableEq

/-- The analysis phase output: the latest snapshot's rows, the `>= 100`
threshold listing, and the per-region top-5 average table. -/
structure Analysis where
  latest : List Row
  highGdp : List Row
  regionAvg : List (String × ℚ)
deriving DecidableEq

/-- `run_analysis` of the document backend, including reading the history
file (`pd.read_json`): a missing file raises (`FileNotFoundError`), an
unparseable one raises (`ValueError`), and a parseable-but-empty history
raises on the `Processed_Time` column access — analysis never returns an
empty result for a never-appended store. -/
def runAnalysisDoc (f : DocFile) : Except EtlError Analysis :=
  match f with
  | .absent => .error .emptyHistory
  | .corrupt => .error .historyRead
  | .good rows =>
    match latestTimeDoc rows with
    | none => .error .emptyHistory
    | some t =>
      let latest := rows.filter (fun r => r.time = t)
      .ok ⟨latest, latest.filter (fun r => (100 : ℚ) ≤ r.gdp_billion), docRegionTable latest⟩

/-- `run_sql_analysis` of the relational backend: querying a database whose
table was never created raises (`no such table`); otherwise the three SQL
queries run against the stored rows. -/
def runAnalysisSql : Option (List Row) → Except EtlError Analysis
  | none => .error .emptyHistory
  | some rows =>
    .ok ⟨latestRowsSql rows, thresholdSql rows 100, sqlRegionTable (latestRowsSql rows)⟩

/-- Combine two optional maxima (the fold skeleton of SQL `MAX`). -/
def optMax : Option ℕ → Option ℕ → Option ℕ
  | none, b => b
  | some m, none => some m
  | some m, some n => some (max m n)

/-- Rows stored in the relational table (none stored when the table was
never created). -/
def sqlRows : Option (List Row) → List Row
  | none => []
  | some h => h

/-! ### Concrete fixtures used by the counterexamples and witnesses -/

/-- A persisted snapshot with one region of three rows whose scaled
magnitudes are 2, 1 and 1 — its exact top-5 mean 4/3 has no 2-decimal
representation. -/
def snapA : List Row := [⟨"K", "A", 2, 1⟩, ⟨"L", "A", 1, 1⟩, ⟨"M", "A", 1, 1⟩]

/-- A raw batch with one non-numeric value cell (an em-dash placeholder). -/
def batchB : List RawRow := [⟨"Korea", "—"⟩, ⟨"USA", "1000"⟩]

/-- The spec's threshold example: magnitudes 120, 99.9, 100.0, 500 in
source-table order, one shared timestamp. -/
def snapC : List Row :=
  [⟨"W", "X", 120, 1⟩, ⟨"X", "X", mkRat 999 10, 1⟩, ⟨"Y", "X", 100, 1⟩, ⟨"Z", "X", 500, 1⟩]

/-- The same snapshot as persisted by the document pipeline (descending
magnitude order). -/
def snapCSorted : List Row :=
  [⟨"Z", "X", 500, 1⟩, ⟨"W", "X", 120, 1⟩, ⟨"Y", "X", 100, 1⟩, ⟨"X", "X", mkRat 999 10, 1⟩]

/-- First appended snapshot (timestamp 1). -/
def s1W : List Row := [⟨"K", "A", 1, 1⟩]

/-- Second appended snapshot (timestamp 2). -/
def s2W : List Row := [⟨"K", "A", 2, 2⟩]

/-! ### Helper lemmas: timestamp maxima and latest-snapshot selection -/

theorem seriesMax_eq_none {l : List ℕ} (h : seriesMax l = none) : l = [] := by
  cases l with
  | nil => rfl
  | cons a as =>
    rw [seriesMax] at h
    cases has : seriesMax as <;> rw [has] at h <;> simp at h

theorem seriesMax_spec : ∀ (l : List ℕ) (m : ℕ), seriesMax l = some m →
    m ∈ l ∧ ∀ x ∈ l, x ≤ m := by
  intro l
  induction l with
  | nil => intro m h; simp [seriesMax] at h
  | cons a as ih =>
    intro m h
    rw [seriesMax] at h
    cases has : seriesMax as with
    | none =>
      rw [has] at h
      obtain rfl : a = m := by simpa using h
      obtain rfl : as = [] := seriesMax_eq_none has
      exact ⟨by simp, by simp⟩
    | some m' =>
      rw [has] at h
      obtain rfl : max a m' = m := by simpa using h
      obtain ⟨hmem, hub⟩ := ih m' has
      constructor
      · rcases max_choice a m' with hc | hc <;> rw [hc]
        · simp
        · exact List.mem_cons_of_mem _ hmem
      · intro x hx
        rcases List.mem_cons.mp hx with rfl | hx
        · exact le_max_left _ _
        · exact le_trans (hub x hx) (le_max_right _ _)

theorem seriesMax_isSome {l : List ℕ} (h : l ≠ []) : ∃ m, seriesMax l = some m := by
  cases l with
  | nil => exact absurd rfl h
  | cons a as =>
    rw [seriesMax]
    cases seriesMax as <;> exact ⟨_, rfl⟩

theorem sqlMaxScan_eq : ∀ (rows : List Row) (acc : Option ℕ),
    sqlMaxScan acc rows = optMax acc (seriesMax (rows.map (·.time))) := by
  intro rows
  induction rows with
  | nil => intro acc; cases acc <;> simp [sqlMaxScan, seriesMax, optMax]
  | cons r rs ih =>
    intro acc
    have hstep : sqlMaxScan acc (r :: rs) =
        sqlMaxScan (match acc with | none => some r.time | some m => some (max m r.time)) rs := rfl
    rw [hstep, ih]
    cases acc <;> cases hs : seriesMax (rs.map (·.time)) <;>
      simp [optMax, List.map_cons, seriesMax, hs, Nat.max_assoc]

/-- The SQL `MAX` aggregate and the pandas series max agree. -/
theorem latestTime_parity (rows : List Row) : latestTimeSql rows = latestTimeDoc rows := by
  rw [latestTimeSql, sqlMaxScan_eq, latestTimeDoc, optMax]

/-- Both backends select the same latest-snapshot rows from the same history. -/
theorem latestRows_parity (rows : List Row) : latestRowsDoc rows = latestRowsSql rows := by
  rw [latestRowsDoc, latestRowsSql]
  cases h : latestTimeDoc rows with
  | none =>
    have : rows = [] := by
      rw [latestTimeDoc] at h
      have := seriesMax_eq_none h
      simpa using this
    subst this; simp
  | some t =>
    rw [List.filter_congr]
    intro r _
    rw [latestTime_parity, h]
    simp [eq_comm]

/-- A nonempty history all of whose rows carry one timestamp is its own
latest snapshot. -/
theorem latestRowsDoc_all_same {l : List Row} {t : ℕ} (hall : ∀ r ∈ l, r.time = t)
    (hne : l ≠ []) : latestRowsDoc l = l := by
  have hmapne : l.map (·.time) ≠ [] := by simpa using hne
  obtain ⟨m, hm⟩ := seriesMax_isSome hmapne
  obtain ⟨hmem, -⟩ := seriesMax_spec _ _ hm
  obtain ⟨r, hr, hrt⟩ := List.mem_map.mp hmem
  have : m = t := by rw [← hrt, hall r hr]
  subst this
  rw [latestRowsDoc, latestTimeDoc, hm]
  exact List.filter_eq_self.mpr (fun r hr => by simp [hall r hr])

/-- Appending a strictly newer nonempty snapshot makes it the latest one. -/
theorem latestRowsDoc_append {s1 s2 : List Row} {t1 t2 : ℕ}
    (h1 : ∀ r ∈ s1, r.time = t1) (h2 : ∀ r ∈ s2, r.time = t2)
    (hlt : t1 < t2) (hne : s2 ≠ []) : latestRowsDoc (s1 ++ s2) = s2 := by
  have hmapne : (s1 ++ s2).map (·.time) ≠ [] := by
    simp only [ne_eq, List.map_eq_nil_iff, List.append_eq_nil]
    rintro ⟨-, rfl⟩; exact hne rfl
  obtain ⟨m, hm⟩ := seriesMax_isSome hmapne
  obtain ⟨hmem, hub⟩ := seriesMax_spec _ _ hm
  obtain ⟨r0, hr0⟩ := List.exists_mem_of_ne_nil s2 hne
  have ht2mem : t2 ∈ (s1 ++ s2).map (·.time) :=
    List.mem_map.mpr ⟨r0, List.mem_append_right _ hr0, h2 r0 hr0⟩
  have hm2 : t2 ≤ m := hub _ ht2mem
  obtain ⟨r, hr, hrt⟩ := List.mem_map.mp hmem
  have : m = t2 := by
    rcases List.mem_append.mp hr with hr | hr
    · exact absurd (lt_of_le_of_lt (hrt ▸ hm2) (h1 r hr ▸ hlt)) (lt_irrefl _)
    · rw [← hrt, h2 r hr]
  subst this
  rw [latestRowsDoc, latestTimeDoc, hm]
  show List.filter _ (s1 ++ s2) = s2
  rw [List.filter_append]
  rw [List.filter_eq_nil_iff.mpr (fun r hr => by simp [h1 r hr, Nat.ne_of_lt hlt]),
    List.filter_eq_self.mpr (fun r hr => by simp [h2 r hr]), List.nil_append]

/-! ### Helper lemmas: rounding -/

theorem round2_eq (q : ℚ) : round2 q = (⌊q * 100 + 1 / 2⌋ : ℤ) / 100 := by
  rw [round2, Rat.floor_def', Rat.floor_def]

theorem round2_nonneg {q : ℚ} (h : 0 ≤ q) : 0 ≤ round2 q := by
  rw [round2_eq]
  have h0 : (0 : ℚ) ≤ q * 100 + 1 / 2 := by positivity
  have := Int.floor_nonneg.mpr h0
  positivity

/-! ### Helper lemmas: the SQL rank-based top-5 selection -/

theorem enumFrom_filter_ge {α : Type} : ∀ (l : List α) (m j : ℕ), j ≤ m →
    (List.enumFrom m l).filter (fun p => p.1 < j) = [] := by
  intro l
  induction l with
  | nil => intro m j _; rfl
  | cons a as ih =>
    intro m j hj
    simp only [List.enumFrom, List.filter_cons]
    rw [if_neg (by simp [Nat.not_lt.mpr hj])]
    exact ih (m + 1) j (le_trans hj (Nat.le_succ m))

theorem enumFrom_filter_take {α : Type} : ∀ (l : List α) (n k : ℕ),
    (((List.enumFrom n l).filter (fun p => p.1 < n + k)).map (·.2)) = l.take k := by
  intro l
  induction l with
  | nil => intro n k; simp
  | cons a as ih =>
    intro n k
    cases k with
    | zero =>
      simp only [List.enumFrom, List.filter_cons, Nat.add_zero]
      rw [if_neg (by simp), enumFrom_filter_ge as (n + 1) n (Nat.le_succ n)]
      rfl
    | succ k =>
      simp only [List.enumFrom, List.filter_cons]
      rw [if_pos (by simp)]
      have hpred : (n + (k + 1)) = (n + 1) + k := by omega
      rw [List.map_cons, List.take_succ_cons, hpred, ih (n + 1) k]

/-- The SQLite `ROW_NUMBER ... <= 5` selection picks exactly the 5 first
values of the descending order — pandas `nlargest(5)`. -/
theorem sqlTop5_eq_nlargest (l : List ℚ) : sqlTop5 l = nlargest 5 l := by
  rw [sqlTop5, nlargest, List.enum]
  have := enumFrom_filter_take (qSortDesc l) 0 5
  simpa using this

/-- The relational average is exactly the rounded document average. -/
theorem sqlGroupAvg_eq_round2 (latest : List Row) (g : String) :
    sqlGroupAvg latest g = round2 (docGroupAvg latest g) := by
  rw [sqlGroupAvg, docGroupAvg, sqlTop5_eq_nlargest]

/-! ### Helper lemmas: means of top-k selections -/

theorem nlargest_length (k : ℕ) (l : List ℚ) : (nlargest k l).length = min k l.length := by
  rw [nlargest, List.length_take, qSortDesc, List.length_insertionSort]

theorem nlargest_of_length_le {k : ℕ} {l : List ℚ} (h : l.length ≤ k) :
    nlargest k l = qSortDesc l := by
  rw [nlargest, List.take_of_length_le]
  rw [qSortDesc, List.length_insertionSort]; exact h

theorem mean_qSortDesc (l : List ℚ) : mean (qSortDesc l) = mean l := by
  have hp : List.Perm (qSortDesc l) l := List.perm_insertionSort qGE l
  rw [mean, mean, hp.sum_eq, hp.length_eq]

/-- A group with at most 5 members is averaged over exactly its members. -/
theorem docGroupAvg_small {latest : List Row} {g : String}
    (h : (groupVals latest g).length ≤ 5) :
    docGroupAvg latest g = (groupVals latest g).sum / (groupVals latest g).length := by
  rw [docGroupAvg, nlargest_of_length_le h, mean_qSortDesc, mean]

/-! ### Helper lemmas: transform output order -/

theorem transformSql_countries (lookup : List (String × String)) (t : ℕ) (rows : List RawRow) :
    (transformSql lookup t rows).map (·.country) =
      (rows.filter (fun r => (coerceValue r.gdp_raw).isSome)).map (·.country) := by
  rw [transformSql, List.map_map]
  induction rows with
  | nil => rfl
  | cons r rs ih =>
    rw [validRows] at ih ⊢
    cases h : coerceValue r.gdp_raw <;>
      simp [List.filterMap_cons, List.filter_cons, h, classify, ih]

/-! ### Helper lemmas: character classes -/

theorem isWhitespace_false_of_digit {c : Char} (h : c.isDigit = true) :
    c.isWhitespace = false := by
  simp [Char.isDigit] at h
  simp [Char.isWhitespace]
  repeat' apply And.intro
  all_goals (rintro rfl; revert h; decide)

theorem isOpenBracket_false_of_digit {c : Char} (h : c.isDigit = true) :
    isOpenBracket c = false := by
  simp [Char.isDigit] at h
  simp only [isOpenBracket, Bool.or_eq_false_iff, beq_eq_false_iff_ne, ne_eq]
  repeat' apply And.intro
  all_goals (rintro rfl; revert h; decide)

/-! ### Helper lemmas: the bracket-stripping scan -/

theorem stripLoop_nil (fuel : ℕ) : stripLoop fuel [] = [] := by
  cases fuel <;> rfl

theorem dropUntilClose_no_close {note : List Char}
    (hn : ∀ c ∈ note, isCloseBracket c = false) :
    dropUntilClose (note ++ [')']) = some [] := by
  induction note with
  | nil => rfl
  | cons c cs ih =>
    rw [List.cons_append, dropUntilClose, if_neg (by simp [hn c (List.mem_cons_self c cs)])]
    exact ih fun x hx => hn x (List.mem_cons_of_mem c hx)

/-- On a prefix without openers followed by one whole bracketed aside
closing the string, the regex scan removes exactly the aside. -/
theorem stripLoop_aside {note : List Char} (hn : ∀ c ∈ note, isCloseBracket c = false) :
    ∀ (body : List Char) (fuel : ℕ), body.length < fuel →
      (∀ c ∈ body, isOpenBracket c = false) →
      stripLoop fuel (body ++ '(' :: (note ++ [')'])) = body := by
  intro body
  induction body with
  | nil =>
    intro fuel hfuel _
    obtain ⟨f, rfl⟩ : ∃ f, fuel = f + 1 := ⟨fuel - 1, by omega⟩
    have hstep : stripLoop (f + 1) ([] ++ '(' :: (note ++ [')'])) =
        (match dropUntilClose (note ++ [')']) with
          | some rest => stripLoop f rest
          | none => '(' :: (note ++ [')'])) := rfl
    rw [hstep, dropUntilClose_no_close hn]
    exact stripLoop_nil f
  | cons c bs ih =>
    intro fuel hfuel hopen
    obtain ⟨f, rfl⟩ : ∃ f, fuel = f + 1 := ⟨fuel - 1, by omega⟩
    have hc : isOpenBracket c = false := hopen c (List.mem_cons_self c bs)
    have hstep : stripLoop (f + 1) ((c :: bs) ++ '(' :: (note ++ [')'])) =
        (if isOpenBracket c then
          (match dropUntilClose (bs ++ '(' :: (note ++ [')'])) with
            | some rest => stripLoop f rest
            | none => c :: (bs ++ '(' :: (note ++ [')'])))
        else c :: stripLoop f (bs ++ '(' :: (note ++ [')']))) := rfl
    rw [hstep, hc]
    simp only [Bool.false_eq_true, if_false]
    rw [ih f (by simpa using Nat.lt_of_succ_lt_succ hfuel)
      (fun x hx => hopen x (List.mem_cons_of_mem c hx))]

/-! ### Helper lemmas: trimming and comma removal -/

theorem dropWhile_eq_self_of_all {p : Char → Bool} {l : List Char}
    (h : ∀ c ∈ l, p c = false) : l.dropWhile p = l := by
  cases l with
  | nil => rfl
  | cons c cs => rw [List.dropWhile_cons, if_neg (by simp [h c (List.mem_cons_self c cs)])]

theorem trimEdges_append_space {body : List Char}
    (h : ∀ c ∈ body, c.isWhitespace = false) : trimEdges (body ++ [' ']) = body := by
  cases body with
  | nil => rfl
  | cons c bs =>
    have hc : c.isWhitespace = false := h c (List.mem_cons_self c bs)
    rw [trimEdges, List.cons_append, List.dropWhile_cons, if_neg (by simp [hc])]
    rw [show ((c :: (bs ++ [' '])).reverse) = ' ' :: (bs.reverse ++ [c]) by simp]
    rw [List.dropWhile_cons, if_pos (by decide)]
    rw [dropWhile_eq_self_of_all (fun x hx => by
      rcases List.mem_append.mp hx with hx | hx
      · exact h x (List.mem_cons_of_mem c (List.mem_reverse.mp hx))
      · rw [List.mem_singleton.mp hx]; exact hc)]
    simp

theorem removeCommas_digits {body : List Char}
    (h : ∀ c ∈ body, c.isDigit = true ∨ c = ',') :
    removeCommas body = body.filter Char.isDigit := by
  rw [removeCommas]
  apply List.filter_congr
  intro c hc
  rcases h c hc with hd | rfl
  · rw [hd]
    simp only [bne_iff_ne, ne_eq, decide_eq_true_eq]
    rintro rfl; exact absurd hd (by decide)
  · decide

/-! ### Helper lemmas: digit-string coercion -/

theorem takeWhile_eq_self_of_all {p : Char → Bool} : ∀ {l : List Char},
    (∀ c ∈ l, p c = true) → l.takeWhile p = l := by
  intro l
  induction l with
  | nil => intro _; rfl
  | cons c cs ih =>
    intro h
    rw [List.takeWhile_cons, if_pos (by simp [h c (List.mem_cons_self c cs)])]
    rw [ih fun x hx => h x (List.mem_cons_of_mem c hx)]

theorem dropWhile_eq_nil_of_all {p : Char → Bool} : ∀ {l : List Char},
    (∀ c ∈ l, p c = true) → l.dropWhile p = [] := by
  intro l
  induction l with
  | nil => intro _; rfl
  | cons c cs ih =>
    intro h
    rw [List.dropWhile_cons, if_pos (by simp [h c (List.mem_cons_self c cs)])]
    exact ih fun x hx => h x (List.mem_cons_of_mem c hx)

theorem parseUnsigned_digits {l : List Char} (hne : l ≠ [])
    (hall : ∀ c ∈ l, c.isDigit = true) : parseUnsigned l = some ((digitsToNat l : ℕ) : ℚ) := by
  rw [parseUnsigned]
  simp only [dropWhile_eq_nil_of_all hall, takeWhile_eq_self_of_all hall]
  rw [if_neg (by simpa using hne)]

theorem toNumeric_digits {l : List Char} (hne : l ≠ [])
    (hall : ∀ c ∈ l, c.isDigit = true) : toNumeric l = some ((digitsToNat l : ℕ) : ℚ) := by
  obtain ⟨c, cs, rfl⟩ : ∃ c cs, l = c :: cs := by
    cases l with
    | nil => exact absurd rfl hne
    | cons c cs => exact ⟨c, cs, rfl⟩
  have hc := hall c (List.mem_cons_self c cs)
  rw [toNumeric.eq_def]
  split
  · next heq =>
    obtain rfl : c = '-' := (List.cons.injEq .. ▸ heq).1
    exact absurd hc (by decide)
  · next heq =>
    obtain rfl : c = '+' := (List.cons.injEq .. ▸ heq).1
    exact absurd hc (by decide)
  · next => exact parseUnsigned_digits hne hall

/-! ### Helper lemmas: history folds and single-timestamp snapshots -/

theorem latestTimeDoc_all_same {l : List Row} {t : ℕ} (hall : ∀ r ∈ l, r.time = t)
    (hne : l ≠ []) : latestTimeDoc l = some t := by
  have hmapne : l.map (·.time) ≠ [] := by simpa using hne
  obtain ⟨m, hm⟩ := seriesMax_isSome hmapne
  obtain ⟨hmem, -⟩ := seriesMax_spec _ _ hm
  obtain ⟨r, hr, hrt⟩ := List.mem_map.mp hmem
  rw [latestTimeDoc, hm, ← hrt, hall r hr]

theorem loadDoc_foldl (snaps : List (List Row)) : ∀ h : List Row,
    snaps.foldl (fun f s => (loadDoc f s).1) (DocFile.good h) =
      DocFile.good (h ++ snaps.flatten) := by
  induction snaps with
  | nil => intro h; simp
  | cons s ss ih =>
    intro h
    rw [List.foldl_cons]
    show ss.foldl _ (DocFile.good (h ++ s)) = _
    rw [ih (h ++ s)]
    simp

theorem loadSql_foldl (snaps : List (List Row)) : ∀ h : List Row,
    snaps.foldl loadSql (some h) = some (h ++ snaps.flatten) := by
  induction snaps with
  | nil => intro h; simp
  | cons s ss ih =>
    intro h
    rw [List.foldl_cons]
    show ss.foldl loadSql (some (h ++ s)) = _
    rw [ih (h ++ s)]
    simp

/-! ## The claims -/

/-- C1 (amended): appending identical snapshot sequences to both backends
yields identical persisted histories, and both backends select the same
latest-snapshot rows from equal histories; but the per-group top-5
averages agree only modulo rounding — the relational backend's average is
exactly the document backend's unrounded average rounded to 2 decimals
(the document backend does not round). -/
theorem c1_parity_modulo_rounding :
    (∀ snaps : List (List Row),
      docRows (snaps.foldl (fun f s => (loadDoc f s).1) DocFile.absent) =
        sqlRows (snaps.foldl loadSql none)) ∧
    (∀ rows : List Row, latestRowsDoc rows = latestRowsSql rows) ∧
    (∀ (latest : List Row) (g : String),
      sqlGroupAvg latest g = round2 (docGroupAvg latest g)) := by
  refine ⟨?_, latestRows_parity, sqlGroupAvg_eq_round2⟩
  intro snaps
  cases snaps with
  | nil => rfl
  | cons s ss =>
    rw [List.foldl_cons, List.foldl_cons]
    show docRows (ss.foldl _ (DocFile.good s)) = sqlRows (ss.foldl loadSql (some s))
    rw [loadDoc_foldl, loadSql_foldl]
    rfl

/-- C1 counterexample: one identical snapshot (`snapA`) appended to both
empty backends; the latest selections agree, but the document backend
reports the exact group average 4/3 while the relational backend reports
the rounded 1.33, so the analysis outputs are not numerically identical. -/
theorem c1_counterexample :
    runAnalysisDoc (loadDoc DocFile.absent snapA).1 =
      Except.ok ⟨snapA, [], [("A", 4 / 3)]⟩ ∧
    runAnalysisSql (loadSql none snapA) =
      Except.ok ⟨snapA, [], [("A", 133 / 100)]⟩ ∧
    (4 : ℚ) / 3 ≠ 133 / 100 := by
  refine ⟨?_, ?_, by norm_num⟩
  · have hlt : latestTimeDoc snapA = some 1 := rfl
    have hfilter : snapA.filter (fun r => r.time = 1) = snapA := by decide
    simp only [loadDoc, runAnalysisDoc, hlt, hfilter]
    have hhigh : snapA.filter (fun r => (100 : ℚ) ≤ r.gdp_billion) = [] := by decide
    rw [hhigh]
    have havg : docRegionTable snapA = [("A", 4 / 3)] := by
      norm_num [docRegionTable, regionsOf, snapA, docGroupAvg, groupVals, nlargest,
        qSortDesc, List.insertionSort, List.orderedInsert, mean, qGE, pairGE, List.dedup]
    rw [havg]
  · have hlatest : latestRowsSql snapA = snapA := by decide
    simp only [loadSql, runAnalysisSql, hlatest]
    have hthr : thresholdSql snapA 100 = [] := by decide
    rw [hthr]
    have havg : sqlRegionTable snapA = [("A", 133 / 100)] := by
      norm_num [sqlRegionTable, regionsOf, snapA, sqlGroupAvg_eq_round2, docGroupAvg,
        groupVals, nlargest, qSortDesc, List.insertionSort, List.orderedInsert, mean,
        qGE, pairGE, List.dedup, round2_eq]
    rw [havg]

/-- C2: the document backend's append only concatenates the new snapshot's
rows after the prior history (no prior row is mutated or deleted), and
after appending two snapshots with distinct timestamps the latest-snapshot
selection returns exactly the later snapshot's rows while the earlier
snapshot's rows all remain in the full history. -/
theorem c2_append_only_latest :
    (∀ h new : List Row, (loadDoc (DocFile.good h) new).1 = DocFile.good (h ++ new)) ∧
    (∀ h new : List Row, ∀ r ∈ h, r ∈ docRows (loadDoc (DocFile.good h) new).1) ∧
    (∀ (s1 s2 : List Row) (t1 t2 : ℕ),
      (∀ r ∈ s1, r.time = t1) → (∀ r ∈ s2, r.time = t2) → t1 < t2 → s2 ≠ [] →
      latestRowsDoc (docRows (loadDoc (loadDoc DocFile.absent s1).1 s2).1) = s2 ∧
      ∀ r ∈ s1, r ∈ docRows (loadDoc (loadDoc DocFile.absent s1).1 s2).1) := by
  refine ⟨fun h new => rfl, fun h new r hr => List.mem_append_left _ hr, ?_⟩
  intro s1 s2 t1 t2 h1 h2 hlt hne
  show latestRowsDoc (s1 ++ s2) = s2 ∧ ∀ r ∈ s1, r ∈ s1 ++ s2
  exact ⟨latestRowsDoc_append h1 h2 hlt hne, fun r hr => List.mem_append_left _ hr⟩

/-- C2 witness: two one-row snapshots at timestamps 1 and 2. -/
theorem c2_witness :
    latestRowsDoc (docRows (loadDoc (loadDoc DocFile.absent s1W).1 s2W).1) = s2W ∧
    ∀ r ∈ s1W, r ∈ docRows (loadDoc (loadDoc DocFile.absent s1W).1 s2W).1 :=
  c2_append_only_latest.2.2 s1W s2W 1 2 (by decide) (by decide) (by decide) (by decide)

/-- C3 (amended): the per-group top-5 average is the arithmetic mean of
the (at most) 5 largest scaled magnitudes of the group — averaging over
fewer values when the group is smaller, never padding with zeros — and
both backends return groups sorted descending by that average; but only
the relational backend rounds the average to 2 decimal places, the
document backend returns the unrounded mean. -/
theorem c3_topk_average (latest : List Row) (g : String) :
    docGroupAvg latest g = mean (nlargest 5 (groupVals latest g)) ∧
    (nlargest 5 (groupVals latest g)).length = min 5 (groupVals latest g).length ∧
    (∀ x ∈ nlargest 5 (groupVals latest g),
      ∀ y ∈ (qSortDesc (groupVals latest g)).drop 5, y ≤ x) ∧
    ((groupVals latest g).length ≤ 5 →
      docGroupAvg latest g = (groupVals latest g).sum / (groupVals latest g).length) ∧
    sqlGroupAvg latest g = round2 (docGroupAvg latest g) ∧
    List.Sorted pairGE (docRegionTable latest) ∧
    List.Sorted pairGE (sqlRegionTable latest) := by
  refine ⟨rfl, nlargest_length 5 _, ?_, docGroupAvg_small, sqlGroupAvg_eq_round2 _ _, ?_, ?_⟩
  · intro x hx y hy
    exact (List.sorted_insertionSort qGE (groupVals latest g)).rel_of_mem_take_of_mem_drop hx hy
  · exact List.sorted_insertionSort pairGE _
  · exact List.sorted_insertionSort pairGE _

/-- C3 counterexample: a 3-member group with scaled magnitudes 2, 1, 1;
the document backend's computed average is the exact mean 4/3, which is
not a 2-decimal value, contradicting the claim that the reported average
is rounded to 2 decimal places. -/
theorem c3_counterexample :
    docGroupAvg snapA "A" = 4 / 3 ∧ round2 (4 / 3) ≠ (4 : ℚ) / 3 := by
  constructor
  · norm_num [docGroupAvg, groupVals, snapA, nlargest, qSortDesc, List.insertionSort,
      List.orderedInsert, mean, qGE]
  · rw [round2_eq]; norm_num

/-- C3 witness: the 3-member group of `snapA` is averaged over exactly its
3 values (sum divided by 3), not padded to 5. -/
theorem c3_witness :
    docGroupAvg snapA "A" = (groupVals snapA "A").sum / (groupVals snapA "A").length :=
  (c3_topk_average snapA "A").2.2.2.1 (by decide)

/-- C4: the relational threshold report contains exactly the latest rows
with scaled magnitude at or above the threshold, sorted descending with
ties kept in original row order (stable sort); the document backend's
filter-only report coincides with it whenever the stored snapshot is
descending-sorted (which the document pipeline guarantees); and on the
spec's example magnitudes 120, 99.9, 100.0, 500 with threshold 100 the
report is 500, 120, 100.0 in that order, excluding 99.9. -/
theorem c4_threshold_report :
    (∀ (rows : List Row) (thr : ℚ),
      (∀ r : Row, r ∈ thresholdSql rows thr ↔ r ∈ latestRowsSql rows ∧ thr ≤ r.gdp_billion) ∧
      List.Sorted rowGE (thresholdSql rows thr) ∧
      (List.Sorted rowGE rows → thresholdDoc rows thr = thresholdSql rows thr)) ∧
    thresholdSql snapC 100 = [⟨"Z", "X", 500, 1⟩, ⟨"W", "X", 120, 1⟩, ⟨"Y", "X", 100, 1⟩] := by
  refine ⟨?_, by decide⟩
  intro rows thr
  refine ⟨?_, List.sorted_insertionSort rowGE _, ?_⟩
  · intro r
    rw [thresholdSql, (List.perm_insertionSort rowGE _).mem_iff, List.mem_filter]
    simp
  · intro hsorted
    have hsub1 : List.Sublist (latestRowsDoc rows) rows := by
      rw [latestRowsDoc]
      cases latestTimeDoc rows with
      | none => exact List.nil_sublist rows
      | some t => exact List.filter_sublist rows
    have hs : List.Sorted rowGE (thresholdDoc rows thr) :=
      hsorted.sublist ((List.filter_sublist _).trans hsub1)
    rw [thresholdSql, ← latestRows_parity rows]
    exact hs.insertionSort_eq.symm

/-- C4 witness: on the document pipeline's sorted persistence of the
example snapshot, the document filter-only report equals the relational
sorted report. -/
theorem c4_witness : thresholdDoc snapCSorted 100 = thresholdSql snapCSorted 100 :=
  (c4_threshold_report.1 snapCSorted 100).2.2 (by decide)

/-- C5: cleaning a value made of digits and thousands-separator commas
followed by a bracketed aside strips the aside and the surrounding
whitespace, removes the commas, and coerces the remaining digit string —
the same magnitude as manually stripping both and parsing the digits. -/
theorem c5_value_normalization (body note : List Char)
    (h1 : ∀ c ∈ body, c.isDigit = true ∨ c = ',')
    (h2 : body.filter Char.isDigit ≠ [])
    (h3 : ∀ c ∈ note, isCloseBracket c = false) :
    coerceValue (String.mk (body ++ ' ' :: '(' :: (note ++ [')']))) =
      some ((digitsToNat (body.filter Char.isDigit) : ℕ) : ℚ) := by
  have hopen : ∀ c ∈ body ++ [' '], isOpenBracket c = false := by
    intro c hc
    rcases List.mem_append.mp hc with hc | hc
    · rcases h1 c hc with hd | rfl
      · exact isOpenBracket_false_of_digit hd
      · decide
    · rw [List.mem_singleton.mp hc]; decide
  have hws : ∀ c ∈ body, c.isWhitespace = false := by
    intro c hc
    rcases h1 c hc with hd | rfl
    · exact isWhitespace_false_of_digit hd
    · decide
  have hassoc : body ++ ' ' :: '(' :: (note ++ [')']) =
      (body ++ [' ']) ++ '(' :: (note ++ [')']) := by simp
  have hlen : (body ++ [' ']).length < ((body ++ [' ']) ++ '(' :: (note ++ [')'])).length := by
    simp only [List.length_append, List.length_cons]
    omega
  have hstrip : stripBrackets (body ++ ' ' :: '(' :: (note ++ [')'])) = body ++ [' '] := by
    rw [stripBrackets, hassoc]
    exact stripLoop_aside h3 (body ++ [' ']) _ hlen hopen
  show toNumeric (cleanChars (body ++ ' ' :: '(' :: (note ++ [')']))) = _
  rw [cleanChars, hstrip, trimEdges_append_space hws, removeCommas_digits h1]
  exact toNumeric_digits h2 (fun c hc => (List.mem_filter.mp hc).2)

/-- C5 witness: the spec's example, with both a comma and a bracketed
aside. -/
theorem c5_witness : coerceValue "18,080 (2024)" = some 18080 :=
  c5_value_normalization "18,080".data "2024".data (by decide) (by decide) (by decide)

/-- C6: on a batch with one non-coercible value, both transforms drop the
row (never defaulting its magnitude to zero) and the dropped count is 1;
the document backend logs the count, but the relational backend's
transform emits no dropped-row report at all — contradicting its module
documentation, which states the filtered-row count is logged. -/
theorem c6_dropped_not_reported :
    validRows batchB = [("USA", ((1000 : ℕ) : ℚ))] ∧
    droppedCount batchB = 1 ∧
    "Transform: Filtered out 1 rows with invalid GDP data" ∈ transformDocLog batchB ∧
    "Transform: Filtered out 1 rows with invalid GDP data" ∉ transformSqlLog batchB :=
  ⟨by decide, by decide, by decide, by decide⟩

/-- C7 (amended): every row of the document transform carries
`scaled_magnitude = round2(magnitude / 1000)`, and the invariant
`scaled_magnitude ≥ 0` holds whenever the surviving magnitude is
non-negative (the code does not reject negative coercible values). -/
theorem c7_scaled_magnitude (lookup : List (String × String)) (t : ℕ) (rows : List RawRow)
    (r : Row) (hr : r ∈ transformDoc lookup t rows) :
    ∃ p ∈ validRows rows, r = classify lookup t p ∧
      r.gdp_billion = round2 (p.2 / 1000) ∧ (0 ≤ p.2 → 0 ≤ r.gdp_billion) := by
  have hmem : r ∈ (validRows rows).map (classify lookup t) :=
    (List.perm_insertionSort rowGE _).mem_iff.mp hr
  obtain ⟨p, hp, rfl⟩ := List.mem_map.mp hmem
  exact ⟨p, hp, rfl, rfl, fun hpos => round2_nonneg (div_nonneg hpos (by norm_num))⟩

/-- C7 counterexample: the raw value "-5000" survives coercion and yields
a negative scaled magnitude, violating the unconditional invariant
`scaled_magnitude ≥ 0`. -/
theorem c7_counterexample :
    (transformDoc [] 1 [⟨"X", "-5000"⟩]).map (·.gdp_billion) = [-5] ∧
    ¬ ((0 : ℚ) ≤ -5) := by
  constructor
  · rw [show transformDoc [] 1 [⟨"X", "-5000"⟩] =
      [classify [] 1 ("X", -((5000 : ℕ) : ℚ))] from rfl]
    show [round2 (-((5000 : ℕ) : ℚ) / 1000)] = [-5]
    rw [round2_eq]
    norm_num
  · norm_num

/-- C7 witness: a positive surviving magnitude, with its scaled value. -/
theorem c7_witness :
    ∃ p ∈ validRows [⟨"X", "2000"⟩], classify [] 1 ("X", ((2000 : ℕ) : ℚ)) = classify [] 1 p ∧
      (classify [] 1 ("X", ((2000 : ℕ) : ℚ))).gdp_billion = round2 (p.2 / 1000) ∧
      (0 ≤ p.2 → 0 ≤ (classify [] 1 ("X", ((2000 : ℕ) : ℚ))).gdp_billion) :=
  c7_scaled_magnitude [] 1 [⟨"X", "2000"⟩] (classify [] 1 ("X", ((2000 : ℕ) : ℚ)))
    (by rw [show transformDoc [] 1 [⟨"X", "2000"⟩] =
        [classify [] 1 ("X", ((2000 : ℕ) : ℚ))] from rfl]
        exact List.mem_singleton.mpr rfl)

/-- C8: appending to a corrupt document history succeeds: the rewritten
file holds exactly the new snapshot's rows, the read failure surfaces as
the logged warning line rather than an exception, and a subsequent
analysis sees exactly the new snapshot. -/
theorem c8_corrupt_recovery (new : List Row) (t : ℕ) (hall : ∀ r ∈ new, r.time = t)
    (hne : new ≠ []) :
    (loadDoc DocFile.corrupt new).1 = DocFile.good new ∧
    loadWarnMsg ∈ (loadDoc DocFile.corrupt new).2 ∧
    docRows (loadDoc DocFile.corrupt new).1 = new ∧
    runAnalysisDoc (loadDoc DocFile.corrupt new).1 =
      Except.ok ⟨new, new.filter (fun r => (100 : ℚ) ≤ r.gdp_billion), docRegionTable new⟩ := by
  refine ⟨rfl, by simp [loadDoc], rfl, ?_⟩
  have hlt := latestTimeDoc_all_same hall hne
  have hfil : new.filter (fun r => r.time = t) = new :=
    List.filter_eq_self.mpr (fun r hr => by simp [hall r hr])
  show runAnalysisDoc (DocFile.good new) = _
  simp only [runAnalysisDoc, hlt, hfil]

/-- C8 witness: recovery over a corrupt prior file with a one-row snapshot. -/
theorem c8_witness :
    (loadDoc DocFile.corrupt s2W).1 = DocFile.good s2W ∧
    loadWarnMsg ∈ (loadDoc DocFile.corrupt s2W).2 ∧
    docRows (loadDoc DocFile.corrupt s2W).1 = s2W ∧
    runAnalysisDoc (loadDoc DocFile.corrupt s2W).1 =
      Except.ok ⟨s2W, s2W.filter (fun r => (100 : ℚ) ≤ r.gdp_billion), docRegionTable s2W⟩ :=
  c8_corrupt_recovery s2W 2 (by decide) (by decide)

/-- C9: analysis over a store that was never appended to fails (missing
history file, parseable-but-empty history, missing table) instead of
returning an empty result. -/
theorem c9_empty_history_failure :
    runAnalysisDoc DocFile.absent = Except.error EtlError.emptyHistory ∧
    runAnalysisDoc (DocFile.good []) = Except.error EtlError.emptyHistory ∧
    runAnalysisSql none = Except.error EtlError.emptyHistory :=
  ⟨rfl, rfl, rfl⟩

/-- C10: the document transform persists its snapshot sorted descending by
scaled magnitude, while the relational transform keeps the surviving rows
in extraction order. -/
theorem c10_persisted_order :
    (∀ (lookup : List (String × String)) (t : ℕ) (rows : List RawRow),
      List.Sorted rowGE (transformDoc lookup t rows)) ∧
    (∀ (lookup : List (String × String)) (t : ℕ) (rows : List RawRow),
      (transformSql lookup t rows).map (·.country) =
        (rows.filter (fun r => (coerceValue r.gdp_raw).isSome)).map (·.country)) :=
  ⟨fun _ _ _ => List.sorted_insertionSort rowGE _, transformSql_countries⟩

end GdpEtl
